import Mathlib

/-!
Verification development for the tap-google-sheets-range extractor.

The definitions below are a shallow embedding of the repository's Python
source (tap_google_sheets_range/utils.py, streams.py, sync.py):

* pure helpers (column-letter arithmetic, serial-date conversion) become
  Lean functions;
* Python floats are modelled as exact rationals;
* Python dicts (insertion ordered) become association lists with
  update-in-place semantics;
* fallible code (IndexError, the unbound local col_val, ValueError and the
  schema DATA TYPE ERROR) returns Except;
* external collaborators (HTTP client, singer sink, logger) are out of
  scope: fetched pages, configuration values and clock readings are
  parameters, log statements are dropped.
-/

/-- Decimal digits of a natural number, little recursion on fuel so the
kernel can evaluate it. -/
def natToStrAux : Nat → Nat → List Char
  | 0, _ => []
  | fuel + 1, n =>
    if n < 10 then [Char.ofNat (48 + n)]
    else natToStrAux fuel (n / 10) ++ [Char.ofNat (48 + n % 10)]

/-- Decimal rendering of a natural number. -/
def natToStr (n : Nat) : String :=
  String.mk (natToStrAux (n + 1) n)

/-- Decimal rendering of an integer. -/
def intToStr (z : Int) : String :=
  if z < 0 then "-" ++ natToStr z.natAbs else natToStr z.natAbs

/-- Zero-pad a natural number to two digits (strftime %M, %S style). -/
def pad2 (n : Nat) : String :=
  if n < 10 then "0" ++ natToStr n else natToStr n

/-- Zero-pad a natural number to four digits (strftime %Y style). -/
def pad4 (n : Nat) : String :=
  if n < 10 then "000" ++ natToStr n
  else if n < 100 then "00" ++ natToStr n
  else if n < 1000 then "0" ++ natToStr n
  else natToStr n

/-- Python str.upper, over the string's character list. -/
def strUpper (s : String) : String :=
  String.mk (s.data.map Char.toUpper)

/-- Python str.lower, over the string's character list. -/
def strLower (s : String) : String :=
  String.mk (s.data.map Char.toLower)

/-- utils.col_string_to_num (utils.py lines 34-43): convert a column letter
code to a column index.  The source uppercases the input, then for one
letter returns ord(c) % 64, for two letters 26 + (ord a % 64) * (ord b % 64),
for three letters 26 + 26^2 + the product of the three codes, and raises
ValueError otherwise (modelled as none). -/
def col_string_to_num (col : String) : Option Nat :=
  match (strUpper col).data with
  | [a] => some (a.toNat % 64)
  | [a, b] => some (26 + (a.toNat % 64) * (b.toNat % 64))
  | [a, b, c] => some (26 + 26 ^ 2 + (a.toNat % 64) * (b.toNat % 64) * (c.toNat % 64))
  | _ => none

/-- Digit list of utils.col_num_to_string's loop: while num > 0 it takes
divmod(num - 1, 26) and prepends chr(65 + remainder).  Fuel-driven so the
kernel can evaluate it; the first argument (initial num) is a sufficient
iteration bound. -/
def colDigits : Nat → Nat → List Char
  | 0, _ => []
  | _, 0 => []
  | fuel + 1, n + 1 => colDigits fuel (n / 26) ++ [Char.ofNat (65 + n % 26)]

/-- utils.col_num_to_string (utils.py lines 47-52): convert a column index
back to a column letter string. -/
def col_num_to_string (num : Nat) : String :=
  String.mk (colDigits num num)

/-- Floor of a rational as an integer (q.num.fdiv q.den). -/
def ratFloor (q : ℚ) : Int :=
  q.num.fdiv q.den

/-- Python's built-in round on a real value: round half to even.
Floats are modelled as exact rationals. -/
def pyRound (q : ℚ) : Int :=
  let fl := ratFloor q
  if q - fl < 1 / 2 then fl
  else if 1 / 2 < q - fl then fl + 1
  else if fl % 2 = 0 then fl else fl + 1

/-- Proleptic-Gregorian date (year, month, day) from a count of days since
1970-01-01 (Howard Hinnant's civil_from_days algorithm). -/
def civilFromDays (z0 : Int) : Int × Nat × Nat :=
  let z := z0 + 719468
  let era : Int := z.fdiv 146097
  let doe : Nat := (z - era * 146097).toNat
  let yoe : Nat := (doe - doe / 1460 + doe / 36524 - doe / 146096) / 365
  let y : Int := (yoe : Int) + era * 400
  let doy : Nat := doe - (365 * yoe + yoe / 4 - yoe / 100)
  let mp : Nat := (5 * doy + 2) / 153
  let d : Nat := doy - (153 * mp + 2) / 5 + 1
  let m : Nat := if mp < 10 then mp + 3 else mp - 9
  ((if m ≤ 2 then y + 1 else y), m, d + 0)

/-- A UTC calendar date-time. -/
structure CivilDateTime where
  year : Int
  month : Nat
  day : Nat
  hour : Nat
  minute : Nat
  second : Nat
deriving DecidableEq, Repr

/-- Break a count of seconds since the Unix epoch into a UTC calendar
date-time (datetime(1970,1,1) + timedelta(seconds=s) in the source). -/
def epochSecToCivil (s : Int) : CivilDateTime :=
  let days := s.fdiv 86400
  let sod := (s - days * 86400).toNat
  let c := civilFromDays days
  ⟨c.1, c.2.1, c.2.2, sod / 3600, sod / 60 % 60, sod % 60⟩

/-- Render a UTC calendar date-time as an ISO-8601 string.  The singer
strftime collaborator additionally prints fractional seconds; the instant
is what the source computes. -/
def renderCivil (c : CivilDateTime) : String :=
  (if c.year < 0 then "-" else "") ++ pad4 c.year.natAbs ++ "-" ++ pad2 c.month ++ "-"
    ++ pad2 c.day ++ "T" ++ pad2 c.hour ++ ":" ++ pad2 c.minute ++ ":" ++ pad2 c.second ++ "Z"

/-- utils.excel_to_dttm_str, seconds part (utils.py line 25):
epoch_sec = round((excel_date_sn - 25569) * 86400). -/
def excel_to_epoch_sec (excel_date_sn : ℚ) : Int :=
  pyRound ((excel_date_sn - 25569) * 86400)

/-- utils.excel_to_dttm_str (utils.py lines 17-30): convert an Excel date
serial number to a UTC date-time string by adding the rounded second count
to the Unix epoch. -/
def excel_to_dttm_str (excel_date_sn : ℚ) : String :=
  renderCivil (epochSecToCivil (excel_to_epoch_sec excel_date_sn))

/-- Python slicing s[:10] on the ASCII date-time strings produced above. -/
def pyTake10 (s : String) : String :=
  String.mk (s.data.take 10)

/-- Python str(timedelta(seconds=q)): microseconds are the half-even
rounding of the second count, the result is normalised to
days, hours:minutes:seconds[.microseconds]. -/
def timedeltaStr (totalSecs : ℚ) : String :=
  let us : Int := pyRound (totalSecs * 1000000)
  let days : Int := us.fdiv 86400000000
  let rem : Nat := (us - days * 86400000000).toNat
  let secs : Nat := rem / 1000000
  let micro : Nat := rem % 1000000
  let dayPart : String :=
    if days = 0 then ""
    else intToStr days ++ (if days = 1 then " day, " else " days, ")
  let microPart : String :=
    if micro = 0 then ""
    else "." ++ pad2 (micro / 10000) ++ pad2 (micro / 100 % 100) ++ pad2 (micro % 100)
  dayPart ++ natToStr (secs / 3600) ++ ":" ++ pad2 (secs / 60 % 60) ++ ":"
    ++ pad2 (secs % 60) ++ microPart

deriving instance DecidableEq for Except

/-- Column datatype tags assigned by schema inference
(streams.py get_sheet_columns_schema): the source strings are
numberType.DATE_TIME, numberType.DATE, numberType.TIME, numberType,
stringValue, boolValue and unsupportedValue. -/
inductive ColType
  | dateTime
  | date
  | time
  | number
  | stringValue
  | boolValue
  | unsupported
deriving DecidableEq, Repr

/-- A raw cell value as decoded from the Sheets API JSON.  Python floats
are modelled as exact rationals. -/
inductive CellValue
  | null
  | str (s : String)
  | int (n : Int)
  | float (q : ℚ)
  | bool (b : Bool)
deriving DecidableEq, Repr

/-- A coerced value stored in an output record. -/
inductive OutValue
  | null
  | str (s : String)
  | int (n : Int)
  | float (q : ℚ)
  | bool (b : Bool)
deriving DecidableEq, Repr

/-- Runtime errors SheetData.transform_data can raise: IndexError from the
unguarded cols[col_num - 1] lookup, and UnboundLocalError from reading
col_val before any assignment (boolValue column meeting a float first). -/
inductive TfError
  | indexError
  | unboundLocal
deriving DecidableEq, Repr

/-- Python str() of a cell value.  Floats are modelled as exact rationals
and rendered from their reduced fraction; CPython's shortest-roundtrip
float repr is not reproduced (no verified claim depends on it). -/
def floatStr (q : ℚ) : String :=
  if q.den = 1 then intToStr q.num ++ ".0"
  else intToStr q.num ++ "/" ++ natToStr q.den

/-- Python str() of a raw cell value. -/
def pyStr : CellValue → String
  | .null => "None"
  | .str s => s
  | .int n => intToStr n
  | .float q => floatStr q
  | .bool b => if b then "True" else "False"

/-- The per-cell value coercion of SheetData.transform_data
(streams.py lines 363-461).  last is the current value of the loop-scoped
Python local col_val, read when a boolValue column meets a float (the
source has no branch for that case, so col_val keeps its previous value,
or raises UnboundLocalError if there is none).  Python's
isinstance(value, (int, float)) and isinstance(value, int) are true for
bools, so bool cells take the numeric branches with True = 1, False = 0. -/
def coerceCell (last : Option OutValue) (col_type : ColType) (value : CellValue) :
    Except TfError OutValue :=
  if value = CellValue.null ∨ value = CellValue.str "" then .ok .null
  else
    match col_type, value with
    | .dateTime, .int n => .ok (.str (excel_to_dttm_str (n : ℚ)))
    | .dateTime, .float q => .ok (.str (excel_to_dttm_str q))
    | .dateTime, .bool b => .ok (.str (excel_to_dttm_str (if b then 1 else 0)))
    | .dateTime, v => .ok (.str (pyStr v))
    | .date, .int n => .ok (.str (pyTake10 (excel_to_dttm_str (n : ℚ))))
    | .date, .float q => .ok (.str (pyTake10 (excel_to_dttm_str q)))
    | .date, .bool b => .ok (.str (pyTake10 (excel_to_dttm_str (if b then 1 else 0))))
    | .date, v => .ok (.str (pyStr v))
    | .time, .int n => .ok (.str (timedeltaStr ((n : ℚ) * 86400)))
    | .time, .float q => .ok (.str (timedeltaStr (q * 86400)))
    | .time, .bool b => .ok (.str (timedeltaStr ((if b then (1 : ℚ) else 0) * 86400)))
    | .time, v => .ok (.str (pyStr v))
    | .number, .int n => .ok (.int n)
    | .number, .bool b => .ok (.int (if b then 1 else 0))
    | .number, .float q =>
      if (q * 10 ^ 15).den = 1 then .ok (.float q)
      else .ok (.float ((pyRound (q * 10 ^ 15) : ℚ) / 10 ^ 15))
    | .number, v => .ok (.str (pyStr v))
    | .stringValue, v => .ok (.str (pyStr v))
    | .boolValue, .bool b => .ok (.bool b)
    | .boolValue, .str s =>
      if strLower s = "true" ∨ strLower s = "t" ∨ strLower s = "yes" ∨ strLower s = "y" then
        .ok (.bool true)
      else if strLower s = "false" ∨ strLower s = "f" ∨ strLower s = "no" ∨ strLower s = "n" then
        .ok (.bool false)
      else .ok (.str s)
    | .boolValue, .int n =>
      if n = 1 ∨ n = -1 then .ok (.bool true)
      else if n = 0 then .ok (.bool false)
      else .ok (.str (intToStr n))
    | .boolValue, .float _ =>
      match last with
      | some w => .ok w
      | none => .error .unboundLocal
    | .boolValue, .null => .ok .null
    | .unsupported, v => .ok (.str (pyStr v))

/-- Column metadata as built by get_sheet_columns_schema
(streams.py lines 261-266). -/
structure Column where
  columnIndex : Nat
  columnLetter : String
  columnName : String
  columnType : ColType
deriving DecidableEq, Repr

/-- Stable insertion of a column into a list sorted by columnIndex. -/
def insertCol (c : Column) : List Column → List Column
  | [] => [c]
  | d :: ds => if c.columnIndex ≤ d.columnIndex then c :: d :: ds else d :: insertCol c ds

/-- Python sorted(columns, key=columnIndex) (streams.py line 341), a stable
sort by columnIndex. -/
def sortColumns : List Column → List Column
  | [] => []
  | c :: cs => insertCol c (sortColumns cs)

/-- A Python dict with string keys, modelled as an insertion-ordered
association list. -/
abbrev PyDict := List (String × OutValue)

/-- First value bound to a key, none if the key is absent. -/
def dictGet {α : Type} (k : String) : List (String × α) → Option α
  | [] => none
  | p :: ds => if p.1 = k then some p.2 else dictGet k ds

/-- Python dict assignment d[k] = v: update the existing entry in place,
else append a new entry. -/
def dictUpd {α : Type} (d : List (String × α)) (k : String) (v : α) : List (String × α) :=
  if d.any (fun p => decide (p.1 = k)) then
    d.map (fun p => if p.1 = k then (k, v) else p)
  else d ++ [(k, v)]

/-- The metadata entries opening every record dict
(streams.py lines 349-352). -/
def baseDict (extracted_time spreadsheet_id : String) (sheet_id : Int) (row_num : Nat) : PyDict :=
  [("__sdc_load_time", .str extracted_time),
   ("__sdc_spreadsheet_id", .str spreadsheet_id),
   ("__sdc_sheet_id", .int sheet_id),
   ("__sdc_row", .int row_num)]

/-- The inner cell loop of SheetData.transform_data
(streams.py lines 354-463): walk the row's cells with 1-based col_num,
look the column up with the unguarded cols[col_num - 1], coerce the value
and write it into the record dict.  Returns the grown dict together with
the final value of the col_val local. -/
def transformRow (cols : List Column) :
    Option OutValue → Nat → List CellValue → PyDict → Except TfError (PyDict × Option OutValue)
  | last, _, [], d => .ok (d, last)
  | last, col_num, value :: rest, d =>
    match cols[col_num - 1]? with
    | none => .error .indexError
    | some col =>
      match coerceCell last col.columnType value with
      | .error e => .error e
      | .ok col_val =>
        transformRow cols (some col_val) (col_num + 1) rest (dictUpd d col.columnName col_val)

/-- The row loop of SheetData.transform_data (streams.py lines 344-466):
empty rows are skipped but still advance row_num; non-empty rows become
record dicts in order. -/
def transformRows (extracted_time spreadsheet_id : String) (sheet_id : Int) (cols : List Column) :
    Option OutValue → Nat → List (List CellValue) → Except TfError (List PyDict)
  | _, _, [] => .ok []
  | last, row_num, row :: rest =>
    if row.isEmpty then
      transformRows extracted_time spreadsheet_id sheet_id cols last (row_num + 1) rest
    else
      match transformRow cols last 1 row (baseDict extracted_time spreadsheet_id sheet_id row_num) with
      | .error e => .error e
      | .ok (d, last2) =>
        match transformRows extracted_time spreadsheet_id sheet_id cols last2 (row_num + 1) rest with
        | .error e => .error e
        | .ok ds => .ok (d :: ds)

/-- SheetData.transform_data (streams.py lines 337-467): sort the column
metadata by columnIndex, then transform the fetched rows starting at
absolute row number from_row. -/
def transform_data (spreadsheet_id : String) (sheet_id : Int) (from_row : Nat)
    (columns : List Column) (sheet_data_rows : List (List CellValue)) (extracted_time : String) :
    Except TfError (List PyDict) :=
  transformRows extracted_time spreadsheet_id sheet_id (sortColumns columns)
    none from_row sheet_data_rows

/-- Whether an Except value is a success. -/
def exceptOk {ε α : Type} : Except ε α → Bool
  | .ok _ => true
  | .error _ => false

/-- The very first coerced cell of a transform_data call is the only one
evaluated with col_val still unbound; this predicate says that cell's
coercion succeeds (vacuously true when there is no such cell or no
columns). -/
def firstCellOk (cols : List Column) (rows : List (List CellValue)) : Bool :=
  match (rows.filter (fun r => !r.isEmpty)).head? with
  | none => true
  | some r =>
    match r.head?, cols.head? with
    | some v, some c => exceptOk (coerceCell none c.columnType v)
    | _, _ => true

/-- Config.__init__ (utils.py line 78): self.null_values = null_values or
the default sentinel list.  None and the empty list are falsy in Python,
so both fall back to the default.  No other code in the repository reads
this attribute. -/
def config_null_values (null_values : Option (List String)) : List String :=
  match null_values with
  | none => ["---"]
  | some l => if l.isEmpty then ["---"] else l

/-- The batch loop of SheetData.sync (streams.py lines 486-523) as the list
of fetched row windows.  Fuel-driven so the kernel can evaluate it; each
iteration fetches [from_row, to_row], then advances from_row to to_row + 1
and to_row to min(last_row, to_row + batch_size). -/
def syncWindowsF : Nat → Nat → Nat → Nat → Nat → List (Nat × Nat)
  | 0, _, _, _, _ => []
  | fuel + 1, last_row, batch_size, from_row, to_row =>
    if from_row < last_row ∧ to_row ≤ last_row then
      (from_row, to_row) ::
        syncWindowsF fuel last_row batch_size (to_row + 1) (min last_row (to_row + batch_size))
    else []

/-- The full window sequence of one sheet sync: paging starts at
from_row = first_row and to_row = min(last_row, batch_size)
(streams.py lines 487-488); last_row + 1 iterations of fuel are enough to
drain the loop whenever batch_size is at least one. -/
def sheetWindows (first_row last_row batch_size : Nat) : List (Nat × Nat) :=
  syncWindowsF (last_row + 1) last_row batch_size first_row (min last_row batch_size)

/-- The relation between two consecutive fetched windows generated by the
batch loop. -/
def windowStep (last_row batch_size : Nat) (w w2 : Nat × Nat) : Prop :=
  w2.1 = w.2 + 1 ∧ w2.2 = min last_row (w.2 + batch_size)

/-- One sheet's inputs to the sync controller: the stream name derived
from the sheet title and the pages its SheetData.sync generator yields. -/
structure SheetInput where
  stream_name : String
  pages : List (List PyDict)

/-- Observable outputs of sync.sync in emission order: schema writes,
record messages, activate-version messages and the file_metadata record.
State writes are tracked separately as the bookmarks dict. -/
inductive SyncEvt
  | schemaMsg (stream : String)
  | recordMsg (stream : String) (d : PyDict)
  | activateMsg (stream : String) (version : Int)
  | fileRecordMsg
deriving DecidableEq

/-- sync.get_bookmark (sync.py lines 42-49): the stored bookmark for a
stream, or the default when state has none.  Bookmark values are modelled
as integers (file timestamps as epoch seconds, sheet versions as the
millisecond clock ints the source stores). -/
def get_bookmark (st : List (String × Int)) (stream : String) (default : Int) : Int :=
  (dictGet stream st).getD default

/-- sync.write_bookmark (sync.py lines 52-57): set the stream's bookmark. -/
def write_bookmark (st : List (String × Int)) (stream : String) (value : Int) :
    List (String × Int) :=
  dictUpd st stream value

/-- The stream classes registered in the STREAMS dict
(streams.py lines 526-530). -/
inductive StreamKind
  | fileMetadata
  | sheetMetadata
  | sheetData
deriving DecidableEq, Repr

/-- streams.py lines 526-530: the STREAMS registry.  Its keys are
file_metadata, sheet_metadata and sheet_data; there is no key named
sheet. -/
def STREAMS : List (String × StreamKind) :=
  [("file_metadata", StreamKind.fileMetadata),
   ("sheet_metadata", StreamKind.sheetMetadata),
   ("sheet_data", StreamKind.sheetData)]

/-- The Python error the sheet loop of sync.sync raises: sync.py line 175
calls STREAMS.get('sheet')(client, config, state, sheet_name); the lookup
yields None and calling None raises TypeError. -/
inductive SyncErr
  | typeError
deriving DecidableEq, Repr

/-- The per-sheet logic of sync.py lines 176-214 as written: write the
schema, read the version bookmark with default 0, emit a pre-sync
activate-version message only when that bookmark is 0, emit every page's
records, emit the post-sync activate-version message and persist the
version as the new bookmark.  version stands for the int(time.time()*1000)
clock reading.  These lines run only if the stream-object construction on
line 175 succeeded, which it never does (see sync_sheet). -/
def sheet_sync_body (st : List (String × Int)) (sh : SheetInput) (version : Int) :
    List SyncEvt × List (String × Int) :=
  let last_integer := get_bookmark st sh.stream_name 0
  let pre := if last_integer = 0 then [SyncEvt.activateMsg sh.stream_name version] else []
  let recs := (sh.pages.flatten).map (SyncEvt.recordMsg sh.stream_name)
  (SyncEvt.schemaMsg sh.stream_name :: pre ++ recs ++ [SyncEvt.activateMsg sh.stream_name version],
    write_bookmark st sh.stream_name version)

/-- One iteration of the sheet loop of sync.sync (sync.py lines 174-214):
the iteration's first statement is
stream_object = STREAMS.get('sheet')(client, config, state, sheet_name)
on line 175.  The registry has no key 'sheet', so the lookup yields None
and the call raises TypeError before any of the remaining lines run. -/
def sync_sheet (st : List (String × Int)) (sh : SheetInput) (version : Int) :
    Except SyncErr (List SyncEvt × List (String × Int)) :=
  match dictGet "sheet" STREAMS with
  | none => .error .typeError
  | some _ => .ok (sheet_sync_body st sh version)

/-- The sheet loop of sync.sync, folding sync_sheet over the sheets paired
with their clock readings.  An uncaught exception aborts the loop; the
result keeps the events emitted and the state written before the abort,
plus the error. -/
def sync_sheets (st : List (String × Int)) : List (SheetInput × Int) →
    List SyncEvt × List (String × Int) × Option SyncErr
  | [] => ([], st, none)
  | (sh, v) :: rest =>
    match sync_sheet st sh v with
    | .error e => ([], st, some e)
    | .ok r1 =>
      let r2 := sync_sheets r1.2 rest
      (r1.1 ++ r2.1, r2.2.1, r2.2.2)

/-- sync.sync (sync.py lines 138-219): fetch the file modification time,
compare it with the stored file_metadata bookmark (default start_date);
when file_mtime is not newer, write file_mtime as the bookmark and return
with no sheet syncs; otherwise emit the file_metadata record and run the
sheet loop.  When the loop raises (which it always does for a non-empty
sheet list, see sync_sheet) the exception propagates: the run ends with
the events emitted so far and the final file_metadata bookmark write on
line 217 never happens; otherwise that bookmark write concludes the run.
Timestamps are modelled as epoch-second integers; stream selection and
currently_syncing bookkeeping are dropped. -/
def sync_run (file_mtime start_date : Int) (st : List (String × Int))
    (sheets : List SheetInput) (versions : List Int) :
    List SyncEvt × List (String × Int) :=
  let last_mtime := get_bookmark st "file_metadata" start_date
  if file_mtime ≤ last_mtime then
    ([], write_bookmark st "file_metadata" file_mtime)
  else
    let r := sync_sheets st (sheets.zip versions)
    match r.2.2 with
    | some _ => (SyncEvt.fileRecordMsg :: r.1, r.2.1)
    | none => (SyncEvt.fileRecordMsg :: r.1, write_bookmark r.2.1 "file_metadata" file_mtime)

/-! Helper lemmas. -/

theorem ratFloor_intCast (z : Int) : ratFloor (z : ℚ) = z := by
  simp [ratFloor, Rat.num_intCast, Rat.den_intCast, Int.fdiv_one]

theorem pyRound_int (z : Int) : pyRound (z : ℚ) = z := by
  unfold pyRound
  rw [ratFloor_intCast]
  have h : (z : ℚ) - (z : ℚ) < 1 / 2 := by norm_num
  simp [h]

theorem getElem?_mem_list {α : Type} {l : List α} {i : Nat} {a : α} (h : l[i]? = some a) :
    a ∈ l := by
  obtain ⟨hl, he⟩ := List.getElem?_eq_some.mp h
  exact he ▸ List.getElem_mem hl

theorem dictUpd_cons_ne {α : Type} (p : String × α) (ds : List (String × α)) (k : String)
    (v : α) (hp : p.1 ≠ k) : dictUpd (p :: ds) k v = p :: dictUpd ds k v := by
  unfold dictUpd
  rw [List.any_cons, decide_eq_false hp, Bool.false_or]
  by_cases hd : (ds.any fun q => decide (q.1 = k)) = true
  · rw [if_pos hd, if_pos hd, List.map_cons, if_neg hp]
  · rw [if_neg hd, if_neg hd, List.cons_append]

theorem dictGet_dictUpd_self {α : Type} (d : List (String × α)) (k : String) (v : α) :
    dictGet k (dictUpd d k v) = some v := by
  induction d with
  | nil => simp [dictUpd, dictGet]
  | cons p ds ih =>
    by_cases hp : p.1 = k
    · have hcond : ((p :: ds).any fun q => decide (q.1 = k)) = true := by
        simp [List.any_cons, hp]
      unfold dictUpd
      rw [if_pos hcond, List.map_cons, if_pos hp]
      simp [dictGet]
    · rw [dictUpd_cons_ne p ds k v hp]
      simp only [dictGet, if_neg hp]
      exact ih

theorem dictGet_map_upd_ne {α : Type} (ds : List (String × α)) (k kk : String) (v : α)
    (h : kk ≠ k) :
    dictGet k (ds.map (fun p => if p.1 = kk then (kk, v) else p)) = dictGet k ds := by
  induction ds with
  | nil => rfl
  | cons q qs ih =>
    by_cases hq : q.1 = kk
    · simp only [List.map_cons, if_pos hq, dictGet]
      rw [if_neg h, if_neg (fun hqk => h (hq ▸ hqk))]
      exact ih
    · simp only [List.map_cons, if_neg hq, dictGet]
      by_cases hqk : q.1 = k
      · rw [if_pos hqk, if_pos hqk]
      · rw [if_neg hqk, if_neg hqk]
        exact ih

theorem dictGet_append_single_ne {α : Type} (d : List (String × α)) (k kk : String) (v : α)
    (h : kk ≠ k) : dictGet k (d ++ [(kk, v)]) = dictGet k d := by
  induction d with
  | nil => simp [dictGet, h]
  | cons p ds ih =>
    simp only [List.cons_append, dictGet]
    rw [show ds.append [(kk, v)] = ds ++ [(kk, v)] from rfl, ih]

theorem dictGet_dictUpd_ne {α : Type} (d : List (String × α)) (k kk : String) (v : α)
    (h : kk ≠ k) : dictGet k (dictUpd d kk v) = dictGet k d := by
  unfold dictUpd
  split
  · exact dictGet_map_upd_ne d k kk v h
  · exact dictGet_append_single_ne d k kk v h

theorem dictUpd_fresh {α : Type} (d : List (String × α)) (k : String) (v : α)
    (h : k ∉ d.map Prod.fst) : dictUpd d k v = d ++ [(k, v)] := by
  unfold dictUpd
  rw [if_neg]
  simp only [List.any_eq_true, decide_eq_true_eq, not_exists]
  intro p hc
  obtain ⟨hp, hpk⟩ := hc
  exact h (hpk ▸ List.mem_map_of_mem Prod.fst hp)

theorem dictGet_eq_none {α : Type} (d : List (String × α)) (k : String)
    (h : k ∉ d.map Prod.fst) : dictGet k d = none := by
  induction d with
  | nil => rfl
  | cons p ds ih =>
    simp only [List.map_cons, List.mem_cons, not_or] at h
    simp only [dictGet]
    rw [if_neg (fun he => h.1 he.symm)]
    exact ih h.2

theorem coerceCell_some_ok (w : OutValue) (ct : ColType) (v : CellValue) :
    ∃ u, coerceCell (some w) ct v = .ok u := by
  unfold coerceCell
  split
  · exact ⟨_, rfl⟩
  cases ct <;> cases v <;> (repeat' split) <;> first
    | exact ⟨_, rfl⟩
    | simp_all

theorem transformRow_nil (cols : List Column) (last : Option OutValue) (cn : Nat) (d : PyDict) :
    transformRow cols last cn [] d = .ok (d, last) := rfl

theorem transformRow_get_preserve (k : String) (cols : List Column)
    (hk : ∀ c ∈ cols, c.columnName ≠ k) :
    ∀ (r : List CellValue) (last : Option OutValue) (cn : Nat) (d d2 : PyDict)
      (l2 : Option OutValue),
      transformRow cols last cn r d = .ok (d2, l2) → dictGet k d2 = dictGet k d := by
  intro r
  induction r with
  | nil =>
    intro last cn d d2 l2 h
    rw [transformRow_nil] at h
    cases h
    rfl
  | cons v vs ih =>
    intro last cn d d2 l2 h
    simp only [transformRow] at h
    split at h
    · exact absurd h (by simp)
    · rename_i c hcol
      split at h
      · exact absurd h (by simp)
      · rename_i w hco
        have hc : c ∈ cols := getElem?_mem_list hcol
        rw [ih _ _ _ _ _ h]
        exact dictGet_dictUpd_ne d k c.columnName w (hk c hc)

theorem baseDict_row (t spid : String) (shid : Int) (n : Nat) :
    dictGet "__sdc_row" (baseDict t spid shid n) = some (OutValue.int n) := by
  simp [baseDict, dictGet]

theorem transformRows_row_nums (t spid : String) (shid : Int) (cols : List Column)
    (hk : ∀ c ∈ cols, c.columnName ≠ "__sdc_row") :
    ∀ (rows : List (List CellValue)) (last : Option OutValue) (f : Nat) (recs : List PyDict),
      transformRows t spid shid cols last f rows = .ok recs →
      recs.map (dictGet "__sdc_row") =
        ((List.enumFrom f rows).filter (fun p => !p.2.isEmpty)).map
          (fun p => some (OutValue.int p.1)) := by
  intro rows
  induction rows with
  | nil =>
    intro last f recs h
    simp only [transformRows] at h
    cases h
    rfl
  | cons r rs ih =>
    intro last f recs h
    have henum : List.enumFrom f (r :: rs) = (f, r) :: List.enumFrom (f + 1) rs := rfl
    simp only [transformRows] at h
    split at h
    · rename_i hr
      rw [henum, List.filter_cons]
      simp only [hr]
      simp only [Bool.not_true, if_false, Bool.false_eq_true]
      exact ih last (f + 1) recs h
    · rename_i hr
      cases htr : transformRow cols last 1 r (baseDict t spid shid f) with
      | error e =>
        rw [htr] at h
        exact absurd h (by simp)
      | ok p =>
        obtain ⟨d, last2⟩ := p
        rw [htr] at h
        simp only [] at h
        cases hds : transformRows t spid shid cols last2 (f + 1) rs with
        | error e =>
          rw [hds] at h
          exact absurd h (by simp)
        | ok ds =>
          rw [hds] at h
          simp only [] at h
          cases h
          rw [henum, List.filter_cons]
          have hre : (!r.isEmpty) = true := by
            cases hie : r.isEmpty
            · rfl
            · exact absurd hie hr
          simp only [hre, if_true, List.map_cons]
          have hd : dictGet "__sdc_row" d = some (OutValue.int f) := by
            rw [transformRow_get_preserve "__sdc_row" cols hk r last 1 _ d last2 htr]
            exact baseDict_row t spid shid f
          rw [hd, ih last2 (f + 1) ds hds]

theorem transformRow_ok_some (cols : List Column) :
    ∀ (r : List CellValue) (w : OutValue) (cn : Nat) (d : PyDict),
      cn - 1 + r.length ≤ cols.length → 1 ≤ cn →
      ∃ (d2 : PyDict) (u : OutValue), transformRow cols (some w) cn r d = .ok (d2, some u) := by
  intro r
  induction r with
  | nil =>
    intro w cn d _ _
    exact ⟨d, w, rfl⟩
  | cons v vs ih =>
    intro w cn d hlen hcn
    have hlt : cn - 1 < cols.length := by
      simp only [List.length_cons] at hlen
      omega
    have hcol : cols[cn - 1]? = some cols[cn - 1] := List.getElem?_eq_getElem hlt
    obtain ⟨u0, hco⟩ := coerceCell_some_ok w (cols[cn - 1]).columnType v
    have hlen2 : cn + 1 - 1 + vs.length ≤ cols.length := by
      simp only [List.length_cons] at hlen
      omega
    obtain ⟨d2, u, hrec⟩ := ih u0 (cn + 1) (dictUpd d (cols[cn - 1]).columnName u0) hlen2 (by omega)
    refine ⟨d2, u, ?_⟩
    simp only [transformRow, hcol, hco]
    exact hrec

theorem transformRow_overflow_some (cols : List Column) :
    ∀ (r : List CellValue) (w : OutValue) (cn : Nat) (d : PyDict),
      cols.length < cn - 1 + r.length → 1 ≤ cn → r ≠ [] →
      transformRow cols (some w) cn r d = .error .indexError := by
  intro r
  induction r with
  | nil =>
    intro w cn d _ _ hne
    exact absurd rfl hne
  | cons v vs ih =>
    intro w cn d hlen hcn _
    cases hcol : cols[cn - 1]? with
    | none =>
      simp only [transformRow, hcol]
    | some c =>
      have hlt : cn - 1 < cols.length := (List.getElem?_eq_some.mp hcol).1
      obtain ⟨u0, hco⟩ := coerceCell_some_ok w c.columnType v
      have hvs : vs ≠ [] := by
        simp only [List.length_cons] at hlen
        intro hv
        rw [hv] at hlen
        simp at hlen
        omega
      have hlen2 : cols.length < cn + 1 - 1 + vs.length := by
        simp only [List.length_cons] at hlen
        omega
      simp only [transformRow, hcol, hco]
      exact ih u0 (cn + 1) (dictUpd d c.columnName u0) hlen2 (by omega) hvs

theorem exceptOk_ok {ε α : Type} (e : Except ε α) (h : exceptOk e = true) :
    ∃ a, e = .ok a := by
  cases e with
  | ok a => exact ⟨a, rfl⟩
  | error _ => exact absurd h (by simp [exceptOk])

theorem transformRows_overflow_some (t spid : String) (shid : Int) (cols : List Column) :
    ∀ (rows : List (List CellValue)) (w : OutValue) (f : Nat),
      (∃ r ∈ rows, cols.length < r.length) →
      transformRows t spid shid cols (some w) f rows = .error .indexError := by
  intro rows
  induction rows with
  | nil =>
    intro w f h
    obtain ⟨r, hr, _⟩ := h
    exact absurd hr (by simp)
  | cons r rs ih =>
    intro w f h
    simp only [transformRows]
    split
    · rename_i hre
      apply ih w (f + 1)
      obtain ⟨r0, hr0, hlen⟩ := h
      rcases List.mem_cons.mp hr0 with he | hm
      · rw [List.isEmpty_iff] at hre
        rw [he, hre] at hlen
        simp at hlen
      · exact ⟨r0, hm, hlen⟩
    · rename_i hre
      by_cases hlen : cols.length < r.length
      · rw [transformRow_overflow_some cols r w 1 (baseDict t spid shid f)
          (by simpa using hlen) (by omega)
          (by intro hc; rw [hc] at hre; simp at hre)]
      · push_neg at hlen
        obtain ⟨d2, u, htr⟩ := transformRow_ok_some cols r w 1 (baseDict t spid shid f)
          (by simpa using hlen) (by omega)
        have hrs : ∃ r0 ∈ rs, cols.length < r0.length := by
          obtain ⟨r0, hr0, hl0⟩ := h
          rcases List.mem_cons.mp hr0 with he | hm
          · rw [he] at hl0
            omega
          · exact ⟨r0, hm, hl0⟩
        simp only [htr]
        rw [ih u (f + 1) hrs]

theorem transformRow_ok_none (cols : List Column) (v : CellValue) (vs : List CellValue)
    (d : PyDict) (c : Column) (hc : cols[0]? = some c) (u0 : OutValue)
    (hco : coerceCell none c.columnType v = .ok u0)
    (hlen : (v :: vs).length ≤ cols.length) :
    ∃ (d2 : PyDict) (u : OutValue),
      transformRow cols none 1 (v :: vs) d = .ok (d2, some u) := by
  obtain ⟨d2, u, hrec⟩ := transformRow_ok_some cols vs u0 2 (dictUpd d c.columnName u0)
      (by simp only [List.length_cons] at hlen; omega) (by omega)
  refine ⟨d2, u, ?_⟩
  simp only [transformRow, show (1 : Nat) - 1 = 0 from rfl, hc, hco]
  exact hrec

theorem transformRow_overflow_none (cols : List Column) (v : CellValue) (vs : List CellValue)
    (d : PyDict)
    (hsafe : ∀ c, cols[0]? = some c → ∃ u, coerceCell none c.columnType v = .ok u)
    (hlen : cols.length < (v :: vs).length) :
    transformRow cols none 1 (v :: vs) d = .error .indexError := by
  cases hc : cols[0]? with
  | none => simp only [transformRow, show (1 : Nat) - 1 = 0 from rfl, hc]
  | some c =>
    have hlt : 0 < cols.length := (List.getElem?_eq_some.mp hc).1
    obtain ⟨u0, hco⟩ := hsafe c hc
    have hvs : vs ≠ [] := by
      intro hv
      rw [hv] at hlen
      simp only [List.length_cons, List.length_nil] at hlen
      omega
    simp only [transformRow, show (1 : Nat) - 1 = 0 from rfl, hc, hco]
    exact transformRow_overflow_some cols vs u0 2 (dictUpd d c.columnName u0)
      (by simp only [List.length_cons] at hlen; omega) (by omega) hvs

theorem transformRows_overflow_none (t spid : String) (shid : Int) (cols : List Column) :
    ∀ (rows : List (List CellValue)) (f : Nat),
      (∃ r ∈ rows, cols.length < r.length) →
      firstCellOk cols rows = true →
      transformRows t spid shid cols none f rows = .error .indexError := by
  intro rows
  induction rows with
  | nil =>
    intro f h _
    obtain ⟨r, hr, _⟩ := h
    exact absurd hr (by simp)
  | cons r rs ih =>
    intro f h hsafe
    simp only [transformRows]
    split
    · rename_i hre
      rw [List.isEmpty_iff] at hre
      subst hre
      have hsafe2 : firstCellOk cols rs = true := by
        unfold firstCellOk at hsafe
        rw [show List.filter (fun r => !r.isEmpty) ([] :: rs)
            = List.filter (fun r => !r.isEmpty) rs from by simp] at hsafe
        exact hsafe
      apply ih (f + 1) _ hsafe2
      obtain ⟨r0, hr0, hlen⟩ := h
      rcases List.mem_cons.mp hr0 with he | hm
      · rw [he] at hlen
        simp at hlen
      · exact ⟨r0, hm, hlen⟩
    · rename_i hre
      obtain ⟨v, vs, hv⟩ : ∃ v vs, r = v :: vs := by
        cases r with
        | nil => simp at hre
        | cons v vs => exact ⟨v, vs, rfl⟩
      subst hv
      have hsafe1 : ∀ c, cols[0]? = some c → ∃ u, coerceCell none c.columnType v = .ok u := by
        intro c hc
        unfold firstCellOk at hsafe
        rw [show List.filter (fun r => !r.isEmpty) ((v :: vs) :: rs)
            = (v :: vs) :: List.filter (fun r => !r.isEmpty) rs from by simp] at hsafe
        rw [show cols.head? = some c from by rw [List.head?_eq_getElem?, hc]] at hsafe
        simp only [List.head?_cons] at hsafe
        exact exceptOk_ok _ hsafe
      by_cases hlen : cols.length < (v :: vs).length
      · rw [transformRow_overflow_none cols v vs (baseDict t spid shid f) hsafe1 hlen]
      · push_neg at hlen
        have hlt : 0 < cols.length := by
          simp only [List.length_cons] at hlen
          omega
        have hc : cols[0]? = some cols[0] := List.getElem?_eq_getElem hlt
        obtain ⟨u0, hco⟩ := hsafe1 cols[0] hc
        obtain ⟨d2, u, htr⟩ := transformRow_ok_none cols v vs (baseDict t spid shid f)
          cols[0] hc u0 hco hlen
        have hrs : ∃ r0 ∈ rs, cols.length < r0.length := by
          obtain ⟨r0, hr0, hl0⟩ := h
          rcases List.mem_cons.mp hr0 with he | hm
          · rw [he] at hl0
            omega
          · exact ⟨r0, hm, hl0⟩
        simp only [htr]
        rw [transformRows_overflow_some t spid shid cols rs u (f + 1) hrs]

theorem transformRow_keys (cols : List Column) :
    ∀ (r : List CellValue) (last : Option OutValue) (cn : Nat) (d d2 : PyDict)
      (l2 : Option OutValue),
      1 ≤ cn →
      ((cols.drop (cn - 1)).map (fun c => c.columnName)).Nodup →
      (∀ c ∈ cols.drop (cn - 1), c.columnName ∉ d.map Prod.fst) →
      transformRow cols last cn r d = .ok (d2, l2) →
      d2.map Prod.fst
        = d.map Prod.fst ++ ((cols.drop (cn - 1)).take r.length).map (fun c => c.columnName) := by
  intro r
  induction r with
  | nil =>
    intro last cn d d2 l2 _ _ _ h
    rw [transformRow_nil] at h
    cases h
    simp
  | cons v vs ih =>
    intro last cn d d2 l2 hcn hnodup hfresh h
    simp only [transformRow] at h
    split at h
    · exact absurd h (by simp)
    · rename_i c hcol
      split at h
      · exact absurd h (by simp)
      · rename_i w hco
        obtain ⟨hlt, he⟩ := List.getElem?_eq_some.mp hcol
        have hdrop : cols.drop (cn - 1) = c :: cols.drop cn := by
          have h1 := List.drop_eq_getElem_cons hlt
          rw [he] at h1
          rw [show cn - 1 + 1 = cn from by omega] at h1
          exact h1
        have hcmem : c ∈ cols.drop (cn - 1) := by
          rw [hdrop]
          exact List.mem_cons_self c (cols.drop cn)
        have hupd : dictUpd d c.columnName w = d ++ [(c.columnName, w)] :=
          dictUpd_fresh d c.columnName w (hfresh c hcmem)
        rw [hdrop] at hnodup
        simp only [List.map_cons, List.nodup_cons] at hnodup
        have hnodup2 : ((cols.drop (cn + 1 - 1)).map (fun c => c.columnName)).Nodup := by
          rw [show cn + 1 - 1 = cn from by omega]
          exact hnodup.2
        have hfresh2 : ∀ c2 ∈ cols.drop (cn + 1 - 1),
            c2.columnName ∉ (dictUpd d c.columnName w).map Prod.fst := by
          rw [show cn + 1 - 1 = cn from by omega]
          intro c2 hc2
          rw [hupd, List.map_append]
          simp only [List.map_cons, List.map_nil, List.mem_append, List.mem_singleton, not_or]
          constructor
          · exact hfresh c2 (by rw [hdrop]; exact List.mem_cons_of_mem c hc2)
          · intro heq
            exact hnodup.1 (heq ▸ List.mem_map_of_mem (fun c => c.columnName) hc2)
        have hrec := ih (some w) (cn + 1) (dictUpd d c.columnName w) d2 l2
          (by omega) hnodup2 hfresh2 h
        rw [hrec, hupd, List.map_append]
        rw [show cn + 1 - 1 = cn from by omega, hdrop]
        simp only [List.map_cons, List.map_nil, List.length_cons, List.take_succ_cons,
          List.map_cons]
        rw [List.append_assoc]
        rfl

theorem syncWindowsF_head (fuel last_row batch_size from_row to_row : Nat) :
    (syncWindowsF fuel last_row batch_size from_row to_row).head? = none ∨
    (syncWindowsF fuel last_row batch_size from_row to_row).head? = some (from_row, to_row) := by
  cases fuel with
  | zero => exact Or.inl rfl
  | succ fuel =>
    simp only [syncWindowsF]
    split
    · exact Or.inr rfl
    · exact Or.inl rfl

theorem syncWindowsF_chain (last_row batch_size : Nat) :
    ∀ (fuel from_row to_row : Nat),
      List.Chain' (windowStep last_row batch_size)
        (syncWindowsF fuel last_row batch_size from_row to_row) := by
  intro fuel
  induction fuel with
  | zero => intro from_row to_row; exact List.chain'_nil
  | succ fuel ih =>
    intro from_row to_row
    simp only [syncWindowsF]
    split
    · rw [List.chain'_cons']
      constructor
      · intro w hw
        rcases syncWindowsF_head fuel last_row batch_size (to_row + 1)
            (min last_row (to_row + batch_size)) with hn | hs
        · rw [hn] at hw
          exact absurd hw (by simp)
        · rw [hs] at hw
          cases hw
          exact ⟨rfl, rfl⟩
      · exact ih (to_row + 1) (min last_row (to_row + batch_size))
    · exact List.chain'_nil

theorem syncWindowsF_guard (last_row batch_size : Nat) :
    ∀ (fuel from_row to_row : Nat) (w : Nat × Nat),
      w ∈ syncWindowsF fuel last_row batch_size from_row to_row →
      w.1 < last_row ∧ w.2 ≤ last_row := by
  intro fuel
  induction fuel with
  | zero =>
    intro from_row to_row w hw
    exact absurd hw (by simp [syncWindowsF])
  | succ fuel ih =>
    intro from_row to_row w hw
    simp only [syncWindowsF] at hw
    split at hw
    · rename_i hg
      rcases List.mem_cons.mp hw with he | hm
      · rw [he]
        exact hg
      · exact ih _ _ w hm
    · exact absurd hw (by simp)

theorem syncWindowsF_stable (last_row batch_size : Nat) (hb : 1 ≤ batch_size) :
    ∀ (fuel from_row to_row : Nat),
      last_row + 1 ≤ fuel + to_row →
      syncWindowsF (fuel + 1) last_row batch_size from_row to_row
        = syncWindowsF fuel last_row batch_size from_row to_row := by
  intro fuel
  induction fuel with
  | zero =>
    intro from_row to_row hf
    have : ¬(from_row < last_row ∧ to_row ≤ last_row) := by omega
    simp only [syncWindowsF]
    rw [if_neg this]
  | succ fuel ih =>
    intro from_row to_row hf
    by_cases hg : from_row < last_row ∧ to_row ≤ last_row
    · have hstep : syncWindowsF (fuel + 1 + 1) last_row batch_size from_row to_row
          = (from_row, to_row) :: syncWindowsF (fuel + 1) last_row batch_size (to_row + 1)
            (min last_row (to_row + batch_size)) := by
        simp only [syncWindowsF]
        rw [if_pos hg]
      have hstep2 : syncWindowsF (fuel + 1) last_row batch_size from_row to_row
          = (from_row, to_row) :: syncWindowsF fuel last_row batch_size (to_row + 1)
            (min last_row (to_row + batch_size)) := by
        simp only [syncWindowsF]
        rw [if_pos hg]
      rw [hstep, hstep2]
      by_cases hto : to_row + batch_size ≤ last_row
      · rw [ih (to_row + 1) (min last_row (to_row + batch_size)) (by omega)]
      · have hmin : min last_row (to_row + batch_size) = last_row := by omega
        rw [hmin]
        cases fuel with
        | zero =>
          have hg2 : ¬(to_row + 1 < last_row ∧ last_row ≤ last_row) := by omega
          simp only [syncWindowsF]
          rw [if_neg hg2]
        | succ fuel2 =>
          rw [ih (to_row + 1) last_row (by omega)]
    · simp only [syncWindowsF]
      rw [if_neg hg, if_neg hg]

theorem sheetWindows_fuel (first_row last_row batch_size : Nat) (hb : 1 ≤ batch_size) :
    ∀ (fuel : Nat), last_row + 1 ≤ fuel →
      syncWindowsF fuel last_row batch_size first_row (min last_row batch_size)
        = sheetWindows first_row last_row batch_size := by
  have haux : ∀ (k : Nat),
      syncWindowsF (last_row + 1 + k) last_row batch_size first_row (min last_row batch_size)
        = sheetWindows first_row last_row batch_size := by
    intro k
    induction k with
    | zero => rfl
    | succ k ihk =>
      rw [show last_row + 1 + (k + 1) = (last_row + 1 + k) + 1 from by omega]
      rw [syncWindowsF_stable last_row batch_size hb (last_row + 1 + k) first_row
        (min last_row batch_size) (by omega)]
      exact ihk
  intro fuel hf
  have : fuel = last_row + 1 + (fuel - (last_row + 1)) := by omega
  rw [this, haux]

theorem baseDict_keys (t spid : String) (shid : Int) (n : Nat) :
    (baseDict t spid shid n).map Prod.fst
      = ["__sdc_load_time", "__sdc_spreadsheet_id", "__sdc_sheet_id", "__sdc_row"] := rfl

/-- C1, counterexample: on the code, the window sequence for first row 2,
last row 1000, batch size 300 is [2,300], [301,600], [601,900], [901,1000]
and not the claimed [2,301], [302,601], [602,901], [902,1000]: the first
window's upper bound is min(last_row, batch_size), which ignores the
configured first row. -/
theorem C1_window_cex :
    sheetWindows 2 1000 300 = [(2, 300), (301, 600), (601, 900), (901, 1000)] ∧
    sheetWindows 2 1000 300 ≠ [(2, 301), (302, 601), (602, 901), (902, 1000)] := by
  constructor
  · decide
  · decide

/-- C1, amended: for a sheet sync with first row f < last row l and batch
size b at least 1, the first fetched window is [f, min(l, b)]; every later
window advances by from_row = previous to_row + 1 and
to_row = min(l, previous to_row + b) (equivalently
to_row = min(l, from_row + b - 1) for windows after the first); every
fetched window satisfies from_row < l and to_row ≤ l, so fetching stops as
soon as from_row reaches l and a final one-row window [l, l] is never
fetched; the window list is fuel-independent (the loop terminates with
exactly this list); for f = 2, l = 1000, b = 300 the windows are
[2,300], [301,600], [601,900], [901,1000]. -/
theorem C1_window_amended (first_row last_row batch_size : Nat)
    (hb : 1 ≤ batch_size) (hfl : first_row < last_row) :
    (sheetWindows first_row last_row batch_size).head?
      = some (first_row, min last_row batch_size)
    ∧ List.Chain' (windowStep last_row batch_size)
        (sheetWindows first_row last_row batch_size)
    ∧ (∀ w ∈ sheetWindows first_row last_row batch_size, w.1 < last_row ∧ w.2 ≤ last_row)
    ∧ (∀ fuel, last_row + 1 ≤ fuel →
        syncWindowsF fuel last_row batch_size first_row (min last_row batch_size)
          = sheetWindows first_row last_row batch_size)
    ∧ sheetWindows 2 1000 300 = [(2, 300), (301, 600), (601, 900), (901, 1000)] := by
  refine ⟨?_, ?_, ?_, ?_, by decide⟩
  · unfold sheetWindows
    simp only [syncWindowsF]
    rw [if_pos ⟨hfl, Nat.min_le_left last_row batch_size⟩]
    rfl
  · exact syncWindowsF_chain last_row batch_size (last_row + 1) first_row
      (min last_row batch_size)
  · intro w hw
    exact syncWindowsF_guard last_row batch_size (last_row + 1) first_row
      (min last_row batch_size) w hw
  · intro fuel hf
    exact sheetWindows_fuel first_row last_row batch_size hb fuel hf

/-- C1, witness: the amended window characterisation applied to the
concrete sheet sync with first row 2, last row 1000, batch size 300. -/
theorem C1_window_amended_witness :
    (sheetWindows 2 1000 300).head? = some (2, min 1000 300) :=
  (C1_window_amended 2 1000 300 (by decide) (by decide)).1

/-- C2, code bug: the roundtrip columnIndexToLetter(columnLetterToIndex(s))
fails for the two-letter code BA: col_string_to_num multiplies the letter
values (26 + 2 * 1 = 28) instead of using base 26 (2 * 26 + 1 = 53), so BA
collides with AB and the roundtrip returns AB, while col_num_to_string
correctly maps 53 back to BA. -/
theorem C2_roundtrip_failure :
    col_string_to_num "BA" = some 28 ∧
    col_string_to_num "AB" = some 28 ∧
    col_num_to_string 28 = "AB" ∧
    "AB" ≠ "BA" ∧
    col_num_to_string 53 = "BA" := by
  refine ⟨by decide, by decide, by decide, by decide, by decide⟩

/-- C3, code bug: the configured null sentinel list (default the single
string of three dashes) is stored by Config but never consulted by value
coercion: a string-typed cell holding the default sentinel is emitted as
that string, not as null.  Only None and the empty string coerce to
null. -/
theorem C3_null_sentinel_failure :
    config_null_values none = ["---"] ∧
    coerceCell none ColType.stringValue (CellValue.str "---") = .ok (OutValue.str "---") ∧
    transform_data "sp" 7 2 [⟨1, "A", "a", ColType.stringValue⟩] [[CellValue.str "---"]] "T"
      = .ok [[("__sdc_load_time", OutValue.str "T"),
              ("__sdc_spreadsheet_id", OutValue.str "sp"),
              ("__sdc_sheet_id", OutValue.int 7), ("__sdc_row", OutValue.int 2),
              ("a", OutValue.str "---")]] ∧
    coerceCell none ColType.stringValue (CellValue.str "") = .ok OutValue.null ∧
    coerceCell none ColType.stringValue CellValue.null = .ok OutValue.null := by
  refine ⟨rfl, by decide, by decide, by decide, by decide⟩

/-- C4, counterexample: with stored file-metadata bookmark 100 and fetched
modification time 50 the short-circuit fires and rewrites the bookmark to
50, altering the stored value. -/
theorem C4_bookmark_cex :
    get_bookmark [("file_metadata", 100)] "file_metadata" 0 = 100 ∧
    (sync_run 50 0 [("file_metadata", 100)] [] []).1 = [] ∧
    (sync_run 50 0 [("file_metadata", 100)] [] []).2 = [("file_metadata", 50)] ∧
    (50 : Int) ≠ 100 := by
  refine ⟨by decide, by decide, by decide, by decide⟩

/-- C4, amended: whenever the fetched file modification time is at most the
stored file-metadata bookmark (default start_date), the run emits nothing
(zero sheet syncs) and writes the fetched modification time itself as the
new file-metadata bookmark; the stored value is preserved only when it
already equals the fetched time. -/
theorem C4_short_circuit_amended (file_mtime start_date : Int) (st : List (String × Int))
    (sheets : List SheetInput) (versions : List Int)
    (h : file_mtime ≤ get_bookmark st "file_metadata" start_date) :
    (sync_run file_mtime start_date st sheets versions).1 = [] ∧
    (sync_run file_mtime start_date st sheets versions).2
      = write_bookmark st "file_metadata" file_mtime ∧
    dictGet "file_metadata" (sync_run file_mtime start_date st sheets versions).2
      = some file_mtime := by
  unfold sync_run
  rw [if_pos h]
  exact ⟨rfl, rfl, dictGet_dictUpd_self st "file_metadata" file_mtime⟩

/-- C4, witness: the amended short-circuit applied to the run with stored
bookmark 100 and fetched modification time 50. -/
theorem C4_short_circuit_amended_witness :
    ((50 : Int) ≤ get_bookmark [("file_metadata", 100)] "file_metadata" 0) ∧
    ((sync_run 50 0 [("file_metadata", 100)] [] []).1 = [] ∧
     (sync_run 50 0 [("file_metadata", 100)] [] []).2
       = write_bookmark [("file_metadata", 100)] "file_metadata" 50 ∧
     dictGet "file_metadata" (sync_run 50 0 [("file_metadata", 100)] [] []).2 = some 50) :=
  ⟨by decide, C4_short_circuit_amended 50 0 [("file_metadata", 100)] [] [] (by decide)⟩

/-- The unreachable per-sheet body (sync.py lines 176-214) does implement
the claimed activate-version protocol: with an absent version bookmark it
emits the activate-version message right after the schema and again after
the last record, both with the same version id, and persists that version;
with an existing non-zero bookmark it emits only the post-sync message. -/
theorem sheet_sync_body_markers (st : List (String × Int)) (sh : SheetInput) (version : Int) :
    (dictGet sh.stream_name st = none →
      (sheet_sync_body st sh version).1
        = SyncEvt.schemaMsg sh.stream_name :: SyncEvt.activateMsg sh.stream_name version ::
            ((sh.pages.flatten).map (SyncEvt.recordMsg sh.stream_name)
              ++ [SyncEvt.activateMsg sh.stream_name version]) ∧
      dictGet sh.stream_name (sheet_sync_body st sh version).2 = some version)
    ∧ (∀ n : Int, dictGet sh.stream_name st = some n → n ≠ 0 →
      (sheet_sync_body st sh version).1
        = SyncEvt.schemaMsg sh.stream_name ::
            ((sh.pages.flatten).map (SyncEvt.recordMsg sh.stream_name)
              ++ [SyncEvt.activateMsg sh.stream_name version]) ∧
      dictGet sh.stream_name (sheet_sync_body st sh version).2 = some version) := by
  constructor
  · intro habs
    have hlast : get_bookmark st sh.stream_name 0 = 0 := by
      unfold get_bookmark
      rw [habs]
      rfl
    constructor
    · simp [sheet_sync_body, hlast]
    · exact dictGet_dictUpd_self st sh.stream_name version
  · intro n hsome hn
    have hlast : get_bookmark st sh.stream_name 0 = n := by
      unfold get_bookmark
      rw [hsome]
      rfl
    constructor
    · simp [sheet_sync_body, hlast, hn]
    · exact dictGet_dictUpd_self st sh.stream_name version

/-- C5, code bug: the activate-version behaviour the claim describes is
written at sync.py lines 187-212 but is unreachable.  Every iteration of
the sheet loop first evaluates STREAMS.get('sheet') (sync.py line 175);
the registry's keys are file_metadata, sheet_metadata and sheet_data, so
the lookup yields None and calling it raises TypeError.  Hence every
sheet sync fails before its first line of real work: a run with a changed
file and one configured sheet emits only the file_metadata record and
aborts with no activate-version message and no version bookmark, while
the unreachable body, run on the same input, would have produced exactly
the claimed messages and bookmark. -/
theorem C5_unreachable_markers :
    dictGet "sheet" STREAMS = none ∧
    (∀ (st : List (String × Int)) (sh : SheetInput) (version : Int),
      sync_sheet st sh version = .error SyncErr.typeError) ∧
    (sync_run 50 0 [] [⟨"s", [[[("a", OutValue.str "x")]]]⟩] [7]).1
      = [SyncEvt.fileRecordMsg] ∧
    (sync_run 50 0 [] [⟨"s", [[[("a", OutValue.str "x")]]]⟩] [7]).2 = [] ∧
    (sheet_sync_body [] ⟨"s", [[[("a", OutValue.str "x")]]]⟩ 7).1
      = SyncEvt.schemaMsg "s" :: SyncEvt.activateMsg "s" 7 ::
          (([[[("a", OutValue.str "x")]]] : List (List PyDict)).flatten.map
              (SyncEvt.recordMsg "s")
            ++ [SyncEvt.activateMsg "s" 7]) ∧
    dictGet "s" (sheet_sync_body [] ⟨"s", [[[("a", OutValue.str "x")]]]⟩ 7).2 = some 7 := by
  refine ⟨rfl, fun st sh version => rfl, by decide, by decide, by decide, by decide⟩

/-- C6: every numeric raw value in a date_time-typed column is coerced by
excel_to_dttm_str, which computes seconds = round((serial - 25569) * 86400)
with Python rounding, adds them to the Unix epoch and renders the UTC
instant; serial 25569 gives zero seconds and 1970-01-01T00:00:00Z, serial
25569.5 gives 43200 seconds and 1970-01-01T12:00:00Z. -/
theorem C6_serial_datetime :
    (∀ (q : ℚ) (last : Option OutValue),
      coerceCell last ColType.dateTime (CellValue.float q)
        = .ok (.str (excel_to_dttm_str q)))
    ∧ (∀ (n : Int) (last : Option OutValue),
      coerceCell last ColType.dateTime (CellValue.int n)
        = .ok (.str (excel_to_dttm_str (n : ℚ))))
    ∧ (∀ q : ℚ, excel_to_dttm_str q
        = renderCivil (epochSecToCivil (pyRound ((q - 25569) * 86400))))
    ∧ excel_to_epoch_sec 25569 = 0
    ∧ excel_to_epoch_sec (25569 + 1 / 2) = 43200
    ∧ excel_to_dttm_str 25569 = "1970-01-01T00:00:00Z"
    ∧ excel_to_dttm_str (25569 + 1 / 2) = "1970-01-01T12:00:00Z" := by
  have h1 : excel_to_epoch_sec 25569 = 0 := by
    unfold excel_to_epoch_sec
    rw [show ((25569 : ℚ) - 25569) * 86400 = ((0 : Int) : ℚ) from by norm_num, pyRound_int]
  have h2 : excel_to_epoch_sec (25569 + 1 / 2) = 43200 := by
    unfold excel_to_epoch_sec
    rw [show ((25569 + 1 / 2 : ℚ) - 25569) * 86400 = ((43200 : Int) : ℚ) from by norm_num,
      pyRound_int]
  refine ⟨?_, ?_, fun q => rfl, h1, h2, ?_, ?_⟩
  · intro q last
    simp [coerceCell]
  · intro n last
    simp [coerceCell]
  · unfold excel_to_dttm_str
    rw [h1]
    decide
  · unfold excel_to_dttm_str
    rw [h2]
    decide

/-- C7: whenever transform_data succeeds, the emitted records' __sdc_row
values are exactly the absolute row numbers of the non-empty fetched rows
in order: a row with zero cells produces no record but still advances the
counter, and each record's row number is the window's from_row plus the
row's offset within the page. -/
theorem C7_row_numbering (spreadsheet_id : String) (sheet_id : Int) (from_row : Nat)
    (columns : List Column) (rows : List (List CellValue)) (extracted_time : String)
    (recs : List PyDict)
    (hname : ∀ c ∈ sortColumns columns, c.columnName ≠ "__sdc_row")
    (h : transform_data spreadsheet_id sheet_id from_row columns rows extracted_time
      = .ok recs) :
    recs.map (dictGet "__sdc_row")
      = ((List.enumFrom from_row rows).filter (fun p => !p.2.isEmpty)).map
          (fun p => some (OutValue.int p.1)) :=
  transformRows_row_nums extracted_time spreadsheet_id sheet_id (sortColumns columns) hname
    rows none from_row recs h

/-- C7, witness: the row-number characterisation applied to a page starting
at row 5 whose first and third rows are empty: only one record comes out,
numbered 6. -/
theorem C7_row_numbering_witness :
    (∀ c ∈ sortColumns [⟨1, "A", "a", ColType.stringValue⟩],
      c.columnName ≠ "__sdc_row") ∧
    ([[("__sdc_load_time", OutValue.str "T"), ("__sdc_spreadsheet_id", OutValue.str "sp"),
       ("__sdc_sheet_id", OutValue.int 7), ("__sdc_row", OutValue.int 6),
       ("a", OutValue.str "x")]] : List PyDict).map (dictGet "__sdc_row")
      = ((List.enumFrom 5 [[], [CellValue.str "x"], []]).filter
          (fun p => !p.2.isEmpty)).map (fun p => some (OutValue.int p.1)) :=
  ⟨by decide,
    C7_row_numbering "sp" 7 5 [⟨1, "A", "a", ColType.stringValue⟩]
      [[], [CellValue.str "x"], []] "T"
      [[("__sdc_load_time", OutValue.str "T"), ("__sdc_spreadsheet_id", OutValue.str "sp"),
        ("__sdc_sheet_id", OutValue.int 7), ("__sdc_row", OutValue.int 6),
        ("a", OutValue.str "x")]]
      (by decide) (by decide)⟩

/-- C9, counterexample: a fetched row with one cell against two declared
columns produces a record whose key list stops after the first column: the
missing trailing column b is absent from the record, not mapped to
null. -/
theorem C9_missing_trailing_cex :
    transform_data "sp" 7 2
      [⟨1, "A", "a", ColType.stringValue⟩, ⟨2, "B", "b", ColType.stringValue⟩]
      [[CellValue.str "x"]] "T"
      = .ok [[("__sdc_load_time", OutValue.str "T"),
              ("__sdc_spreadsheet_id", OutValue.str "sp"),
              ("__sdc_sheet_id", OutValue.int 7), ("__sdc_row", OutValue.int 2),
              ("a", OutValue.str "x")]] ∧
    dictGet "b" [(("__sdc_load_time" : String), OutValue.str "T"),
                 ("__sdc_spreadsheet_id", OutValue.str "sp"),
                 ("__sdc_sheet_id", OutValue.int 7), ("__sdc_row", OutValue.int 2),
                 ("a", OutValue.str "x")] = none ∧
    dictGet "b" [(("__sdc_load_time" : String), OutValue.str "T"),
                 ("__sdc_spreadsheet_id", OutValue.str "sp"),
                 ("__sdc_sheet_id", OutValue.int 7), ("__sdc_row", OutValue.int 2),
                 ("a", OutValue.str "x")] ≠ some OutValue.null := by
  refine ⟨by decide, by decide, by decide⟩

/-- C9, amended: when a fetched row has at most as many cells as declared
columns (with distinct column names not colliding with the metadata keys),
the produced record's keys are exactly the four metadata keys followed by
the names of the first row-length columns, and every column beyond the
row's cell count is absent from the record (its lookup is none, not
null): coercion runs only over the cells present in the row. -/
theorem C9_missing_trailing_amended (extracted_time spreadsheet_id : String) (sheet_id : Int)
    (row_num : Nat) (cols : List Column) (r : List CellValue) (last : Option OutValue)
    (d2 : PyDict) (l2 : Option OutValue)
    (_hlen : r.length ≤ cols.length)
    (hnodup : (cols.map (fun c => c.columnName)).Nodup)
    (hfresh : ∀ c ∈ cols, c.columnName
      ∉ (baseDict extracted_time spreadsheet_id sheet_id row_num).map Prod.fst)
    (h : transformRow cols last 1 r (baseDict extracted_time spreadsheet_id sheet_id row_num)
      = .ok (d2, l2)) :
    d2.map Prod.fst
      = (baseDict extracted_time spreadsheet_id sheet_id row_num).map Prod.fst
          ++ (cols.take r.length).map (fun c => c.columnName) ∧
    ∀ c ∈ cols.drop r.length, dictGet c.columnName d2 = none := by
  have hkeys := transformRow_keys cols r last 1
    (baseDict extracted_time spreadsheet_id sheet_id row_num) d2 l2 (by omega)
    (by simpa using hnodup) (by simpa using hfresh) h
  simp only [Nat.sub_self, List.drop_zero] at hkeys
  refine ⟨hkeys, ?_⟩
  intro c hc
  apply dictGet_eq_none
  rw [hkeys]
  simp only [List.mem_append, not_or]
  constructor
  · exact hfresh c (List.mem_of_mem_drop hc)
  · intro hmem
    have hsplit : cols.map (fun c => c.columnName)
        = (cols.take r.length).map (fun c => c.columnName)
          ++ (cols.drop r.length).map (fun c => c.columnName) := by
      rw [← List.map_append, List.take_append_drop]
    rw [hsplit] at hnodup
    exact List.disjoint_of_nodup_append hnodup hmem
      (List.mem_map_of_mem (fun c => c.columnName) hc)

/-- C9, witness: the amended characterisation applied to a one-cell row
against two declared string columns. -/
theorem C9_missing_trailing_amended_witness :
    ((baseDict "T" "sp" 7 2 ++ [("a", OutValue.str "x")]).map Prod.fst
      = (baseDict "T" "sp" 7 2).map Prod.fst
          ++ (([⟨1, "A", "a", ColType.stringValue⟩, ⟨2, "B", "b", ColType.stringValue⟩]
                : List Column).take 1).map (fun c => c.columnName) ∧
     ∀ c ∈ ([⟨1, "A", "a", ColType.stringValue⟩, ⟨2, "B", "b", ColType.stringValue⟩]
              : List Column).drop 1,
       dictGet c.columnName (baseDict "T" "sp" 7 2 ++ [("a", OutValue.str "x")]) = none) :=
  C9_missing_trailing_amended "T" "sp" 7 2
    [⟨1, "A", "a", ColType.stringValue⟩, ⟨2, "B", "b", ColType.stringValue⟩]
    [CellValue.str "x"] none (baseDict "T" "sp" 7 2 ++ [("a", OutValue.str "x")])
    (some (OutValue.str "x")) (by decide) (by decide) (by decide) (by decide)

/-- C10: whenever some fetched row has more cells than there are declared
columns (and the run's very first coerced cell does not itself hit the
unbound col_val corner), transform_data fails with the IndexError raised
by the unguarded cols[col_num - 1] lookup instead of ignoring the extra
cells or emitting a truncated record. -/
theorem C10_index_error (spreadsheet_id extracted_time : String) (sheet_id : Int)
    (from_row : Nat) (columns : List Column) (rows : List (List CellValue))
    (h1 : ∃ r ∈ rows, (sortColumns columns).length < r.length)
    (h2 : firstCellOk (sortColumns columns) rows = true) :
    transform_data spreadsheet_id sheet_id from_row columns rows extracted_time
      = .error TfError.indexError :=
  transformRows_overflow_none extracted_time spreadsheet_id sheet_id (sortColumns columns)
    rows from_row h1 h2

/-- C10, witness: a two-cell row against a single declared column makes
transform_data fail with IndexError. -/
theorem C10_index_error_witness :
    (∃ r ∈ [[CellValue.str "x", CellValue.str "y"]],
      (sortColumns [⟨1, "A", "a", ColType.stringValue⟩]).length < r.length) ∧
    transform_data "sp" 7 2 [⟨1, "A", "a", ColType.stringValue⟩]
      [[CellValue.str "x", CellValue.str "y"]] "T" = .error TfError.indexError :=
  ⟨by decide,
    C10_index_error "sp" "T" 7 2 [⟨1, "A", "a", ColType.stringValue⟩]
      [[CellValue.str "x", CellValue.str "y"]] (by decide) (by decide)⟩
